import Mathlib

/-!
# Verification of the Gmail conversation-workflow engine

Shallow embedding of the event-driven conversation workflow implemented in
`src/google_cloud.py` and `src/database.py` of the `gmail_agent` repository,
together with proofs of the behavioural claims about it.

Modelling conventions:

* Provider payloads (`base64url` body data) are modelled by their decoded
  string content; decoding itself is an external bijection and carries no
  logic of the program.
* Effectful steps (database writes, workflow-state loads/stores, AI
  generation attempts, provider send attempts, sleeps, Pub/Sub acks) are
  recorded in an explicit `Effect` trace; external collaborators (Gmail API,
  Supabase, the AI chat application) are oracles bundled in an `Env` record.
* Python falsy-string checks (`if not s`) are modelled by comparison with
  the empty string; absent dictionary keys by `Option`.
* `BeautifulSoup(...).get_text()` is an external library call; it is
  modelled by `stripHtml`, a plain tag-remover, matching the specification
  wording "a `text/html` part with tags stripped to text".
* Markdown/HTML rendering (`mistune`, `fix_inline_bullets`) is explicitly
  excluded from the core by the specification (section 1) and is therefore
  not part of the trace; the body recorded for an outbound reply is the
  reply body handed to the dispatcher.
-/

namespace GmailAgent

/-!
All string primitives used by the embedding are structurally recursive
over `List Char` (rather than the library's position-based versions), so
that every definition evaluates by kernel reduction on concrete input.
Lower-casing is ASCII lower-casing, which covers every address and header
the program compares.
-/

/-- Whether the first list is an initial segment of the second. -/
def isPrefOf : List Char → List Char → Bool
  | [], _ => true
  | _ :: _, [] => false
  | a :: as, b :: bs => a == b && isPrefOf as bs

/-- Whether `sep` occurs as a contiguous sublist of the first list. -/
def containsSub : List Char → List Char → Bool
  | [], sep => sep.isEmpty
  | c :: rest, sep => isPrefOf sep (c :: rest) || containsSub rest sep

/-- Python `s.lower()` (ASCII). -/
def lowerStr (s : String) : String := ⟨s.data.map Char.toLower⟩

/-- Split a character list at every occurrence of `c` (the chunks do not
contain `c`; `n+1` separators yield `n+2` chunks). -/
def splitOnChar (c : Char) : List Char → List (List Char)
  | [] => [[]]
  | d :: rest =>
    let r := splitOnChar c rest
    if d == c then [] :: r
    else
      match r with
      | [] => [[d]]
      | chunk :: rs => (d :: chunk) :: rs

/-- Python `str.split('\n')`. -/
def splitLinesStr (s : String) : List String :=
  (splitOnChar '\n' s.data).map List.asString

/-- ASCII whitespace in the sense of `str.strip()`. -/
def isWhite (c : Char) : Bool := c == ' ' || c == '\t' || c == '\n' || c == '\r'

/-- Strip whitespace from both ends of a character list. -/
def trimChars (l : List Char) : List Char :=
  ((l.dropWhile isWhite).reverse.dropWhile isWhite).reverse

/-- Python `s.strip()`. -/
def strTrim (s : String) : String := ⟨trimChars s.data⟩

/-- Python `s.startswith(pre)`. -/
def strStarts (s pre : String) : Bool := isPrefOf pre.data s.data

/-- Python `'\n'.join(lines)`. -/
def joinNL : List String → String
  | [] => ""
  | [l] => l
  | l :: ls => l ++ "\n" ++ joinNL ls

/-- Python substring test `needle in hay` (an empty needle is contained
in every string). -/
def strContains (hay needle : String) : Bool :=
  if needle.data.isEmpty then true else containsSub hay.data needle.data

/-- One entry of a Gmail `payload.headers` list. -/
structure Header where
  name : String
  value : String
deriving Repr, DecidableEq

/-- One MIME part of a multipart payload.  `data` is the decoded
`body.data` content; `""` models an absent or empty body (falsy in
Python). `mimeType` is `""` when the key is absent. -/
structure MimePart where
  mimeType : String
  data : String
deriving Repr, DecidableEq

/-- A Gmail message `payload`: headers, top-level MIME type, decoded
top-level body data (`""` if absent) and the optional `parts` list
(`none` models a payload without a `parts` key). -/
structure GmailPayload where
  headers : List Header := []
  mimeType : String := ""
  data : String := ""
  parts : Option (List MimePart) := none
deriving Repr, DecidableEq

/-- A Gmail message envelope as consumed by the workflow:
`id`/`threadId` are `none` when the corresponding dictionary key is
missing. -/
structure GmailMessage where
  id : Option String := none
  threadId : Option String := none
  snippet : String := ""
  payload : GmailPayload := {}
deriving Repr, DecidableEq

/-- `next((h['value'] for h in headers if h['name'].lower() == nm), '')`:
value of the first header whose lowered name equals `nm`, else `""`. -/
def headerValue (hs : List Header) (nm : String) : String :=
  match hs.find? (fun h => lowerStr h.name == nm) with
  | some h => h.value
  | none => ""

/-- The `From` header of a message (lower-case header-name lookup). -/
def fromHeaderOf (msg : GmailMessage) : String :=
  headerValue msg.payload.headers "from"

/-- The `To` header of a message (lower-case header-name lookup). -/
def toHeaderOf (msg : GmailMessage) : String :=
  headerValue msg.payload.headers "to"

/-- Capture of Python `re.search(r'<([^>]+)>', s)`: the first `<` that is
followed by at least one non-`>` character and then a `>` yields the
characters in between. -/
def angleCapture : List Char → Option (List Char)
  | [] => none
  | c :: rest =>
    if c = '<' then
      let inside := rest.takeWhile (fun d => d ≠ '>')
      if inside.length < rest.length ∧ inside ≠ [] then some inside
      else angleCapture rest
    else angleCapture rest

/-- `email_match.group(1) if email_match else from_header`: extract the
address from a `Name <email>` header, else return the header unchanged. -/
def parseAngleEmail (s : String) : String :=
  match angleCapture s.data with
  | some cs => cs.asString
  | none => s

/-- Character-level model of `BeautifulSoup(...).get_text()`: drop every
`<...>` tag, keep the rest.  First argument is the inside-a-tag flag. -/
def stripHtmlGo : Bool → List Char → List Char
  | _, [] => []
  | _, '<' :: rest => stripHtmlGo true rest
  | true, '>' :: rest => stripHtmlGo false rest
  | true, _ :: rest => stripHtmlGo true rest
  | false, c :: rest => c :: stripHtmlGo false rest

/-- Tag-stripping of an HTML body to plain text (external collaborator,
modelled per the specification: "a `text/html` part with tags stripped to
text"). -/
def stripHtml (s : String) : String :=
  (stripHtmlGo false s.data).asString

/-- A quote-marker line in the sense of `extract_new_content`
(`google_cloud.py` lines 360-367): stripped line starting with `From:` /
`Sent:` / `To:` / `Subject:` / `>` or containing the long underscore
separator. -/
def isQuoteMarker (line : String) : Bool :=
  strStarts (strTrim line) "From:" ||
  strStarts (strTrim line) "Sent:" ||
  strStarts (strTrim line) "To:" ||
  strStarts (strTrim line) "Subject:" ||
  strContains line "________________________________" ||
  strStarts (strTrim line) ">"

/-- `extract_new_content` (`google_cloud.py` lines 357-369): keep the lines
before the first quote marker, re-join and strip. -/
def extract_new_content (text : String) : String :=
  strTrim (joinNL ((splitLinesStr text).takeWhile (fun l => !isQuoteMarker l)))

/-- The `for part in payload['parts']` loop of `extract_email_body`
(`google_cloud.py` lines 372-391): skip parts without body data, return on
the first `text/plain` or `text/html` part, in part order. -/
def scanParts : List MimePart → Option String
  | [] => none
  | p :: rest =>
    if p.data = "" then scanParts rest
    else if p.mimeType = "text/plain" then some (extract_new_content p.data)
    else if p.mimeType = "text/html" then
      some (extract_new_content (stripHtml p.data))
    else scanParts rest

/-- Result of the multipart scan for a message: `none` when the payload
has no `parts` key or no part matched. -/
def partsResult (m : GmailMessage) : Option String :=
  match m.payload.parts with
  | some ps => scanParts ps
  | none => none

/-- `extract_email_body` (`google_cloud.py` lines 350-415): multipart scan
first, then the single-part body by MIME type, else the provider
snippet. -/
def extract_email_body (m : GmailMessage) : String :=
  match partsResult m with
  | some r => r
  | none =>
    if m.payload.data ≠ "" then
      if m.payload.mimeType = "text/plain" then
        extract_new_content m.payload.data
      else if m.payload.mimeType = "text/html" then
        extract_new_content (stripHtml m.payload.data)
      else m.snippet
    else m.snippet

/-- A row of the `email_workflow` table: the per-thread workflow state. -/
structure WorkflowState where
  step : Nat
  status : String
deriving Repr, DecidableEq

/-- Observable effects of one run of the workflow engine, in program
order. `dbStore` records a `DatabaseManager.store_message` call
(user email, user name, thread id, message id, sender, body, subject);
`sendTry` one provider send attempt with its outcome; `genAttempt` one AI
generation attempt; `loadState`/`saveState` the `email_workflow`
reads/upserts; `sleep` a `time.sleep`; `ack` the Pub/Sub acknowledgement. -/
inductive Effect where
  | loadState (threadId : String)
  | saveState (threadId : String) (step : Nat) (status : String)
  | dbStore (userEmail name threadId messageId sender body subject : String)
  | genAttempt (i : Nat)
  | sendTry (threadId : String) (i : Nat) (ok : Bool)
  | sleep (d : Nat)
  | ack
deriving Repr, DecidableEq

/-- External collaborators and configuration, as oracles:
* `gmailAddress` — the `GMAIL_ADDRESS` environment value (`""` if unset);
* `profileEmail` — the live `getProfile` address used when `GMAIL_ADDRESS`
  is unset;
* `chatApp` — whether an AI chat application is configured;
* `activeThreads` — the active-thread index, thread id to recipient email;
* `dbUserName` — `email_users` name lookup (`none`: no row, or the lookup
  raised: both fall back the same way in the source);
* `workflowTable` — the `email_workflow` rows;
* `genResult` — outcome of the i-th AI generation attempt (`none` models a
  raised exception, `some ""` an empty result);
* `threadMessages` — header lists of the messages of a thread, in thread
  order, used by `send_reply_email`;
* `replyId` — the provider message id assigned to a successful reply;
* `sendOutcome` — outcome of the i-th provider send attempt for a thread;
* `historyList` — the history-API candidate ids for a start history id
  (`none` models a raised exception);
* `recentList` — the fallback `messages().list` ids (`none`: raised);
* `fullMessage` — the `messages().get` fetch of one id (`none`: raised). -/
structure Env where
  gmailAddress : String
  profileEmail : String
  chatApp : Bool
  activeThreads : List (String × String)
  dbUserName : String → Option String
  workflowTable : List (String × WorkflowState)
  genResult : Nat → Option String
  threadMessages : String → List (List Header)
  replyId : String
  sendOutcome : String → Nat → Bool
  historyList : Nat → Option (List String)
  recentList : Option (List String)
  fullMessage : String → Option GmailMessage

/-- `my_email`: the `GMAIL_ADDRESS` environment value, or the live profile
address when that is empty (`google_cloud.py` lines 229-232). -/
def myEmailOf (env : Env) : String :=
  if env.gmailAddress ≠ "" then env.gmailAddress else env.profileEmail

/-- `email_workflow` row lookup by thread id (`load_workflow_state`,
`google_cloud.py` lines 604-611; `none` also models a raised lookup, which
the source turns into `None`). -/
def lookupWorkflow (table : List (String × WorkflowState)) (tid : String) :
    Option WorkflowState :=
  (table.find? (fun p => p.1 == tid)).map (·.2)

/-- The recipient email stored for a thread in the active-thread index
(`self.active_threads.get(thread_id, {}).get('email', '')`). -/
def threadEmail (env : Env) (tid : String) : String :=
  match env.activeThreads.find? (fun p => p.1 == tid) with
  | some p => p.2
  | none => ""

/-- User-name resolution of `enhanced_process_incoming_message`
(`google_cloud.py` lines 252-266): `"Rafael"` for the agent's own address,
else the `email_users` lookup; a missing row and a raised lookup both fall
back to the active-thread index, whose entries carry no `name` key, hence
to `"Unknown"`. -/
def userNameOf (env : Env) (msg : GmailMessage) : String :=
  let userEmail := parseAngleEmail (fromHeaderOf msg)
  if userEmail == env.gmailAddress then "Rafael"
  else
    match env.dbUserName userEmail with
    | some n => n
    | none => "Unknown"

/-- The shared provider send-retry loop (`send_initial_email` lines
157-171 and `send_reply_email` lines 545-561 of `google_cloud.py`):
iterate over the attempt indices; a successful attempt emits `afterOk`
(the reply path sleeps 3 units before breaking, the initial path does
nothing) and stops; a failed non-final attempt sleeps `2 ^ attempt`
units; a failed final attempt re-raises. -/
def sendLoop (outcome : Nat → Bool) (tid : String) (afterOk : List Effect) :
    List Nat → List Effect × Bool
  | [] => ([], false)
  | i :: rest =>
    if outcome i then (Effect.sendTry tid i true :: afterOk, true)
    else if rest.isEmpty then ([Effect.sendTry tid i false], false)
    else
      let r := sendLoop outcome tid afterOk rest
      (Effect.sendTry tid i false :: Effect.sleep (2 ^ i) :: r.1, r.2)

/-- `send_reply_email` (`google_cloud.py` lines 467-583): find the most
recent message of the thread whose `From` does not contain the agent's
address; if none, return with no effect.  Otherwise run the send-retry
loop (with the 3-unit post-success sleep); on success record the agent
message, on exhaustion return early — the raised error is caught inside
this function and never reaches the caller. -/
def send_reply_email (env : Env) (tid : String) (body : String)
    (name : String) : List Effect :=
  let myEmail := myEmailOf env
  match (env.threadMessages tid).reverse.find?
      (fun hs => !strContains (lowerStr (headerValue hs "from")) (lowerStr myEmail)) with
  | none => []
  | some hs =>
    let fromH := headerValue hs "from"
    let subjH := headerValue hs "subject"
    let replySubject := if strStarts subjH "Re:" then subjH else "Re: " ++ subjH
    let r := sendLoop (env.sendOutcome tid) tid [Effect.sleep 3] (List.range 3)
    if r.2 then
      r.1 ++ [Effect.dbStore (parseAngleEmail fromH) name tid env.replyId
        "agent" body replySubject]
    else r.1

/-- `workflow_manager` (`google_cloud.py` lines 418-443): for a thread at
step at most 3 with a non-empty reply body, send the reply and upsert the
new workflow state — step 4 / `completed` when the step was 3, else
step+1 / `sent_followup_step+1`; with an empty body only a skip notice is
printed and nothing else happens; at step 4 or more, nothing happens. -/
def workflow_manager (env : Env) (tid : String) (step : Nat)
    (messageBody : String) (name : String) : List Effect :=
  if step ≤ 3 then
    if messageBody ≠ "" then
      send_reply_email env tid messageBody name ++
        [if step == 3 then Effect.saveState tid 4 "completed"
         else Effect.saveState tid (step + 1)
           ("sent_followup_" ++ toString (step + 1))]
    else []
  else []

/-- The AI generation retry loop (`google_cloud.py` lines 319-329):
iterate over the attempt indices; a raised attempt (`none`) is silently
retried, an empty result is retried, a non-empty result stops the loop. -/
def aiLoop (gen : Nat → Option String) : List Nat → List Effect × Option String
  | [] => ([], none)
  | i :: rest =>
    match gen i with
    | some s =>
      if s ≠ "" then ([Effect.genAttempt i], some s)
      else
        let r := aiLoop gen rest
        (Effect.genAttempt i :: r.1, r.2)
    | none =>
      let r := aiLoop gen rest
      (Effect.genAttempt i :: r.1, r.2)

/-- The fallback reply body substituted when all AI generation attempts
fail (`google_cloud.py` line 333). -/
def fallbackText : String :=
  "Thank you for your message! I'll prepare a more detailed response shortly."

/-- The best-effort inbound-history write (`google_cloud.py` lines
269-282): when the thread is in the active-thread index, store the message
with sender `"agent"` when `From` contains the agent's address and
`"user"` otherwise; no effect for unknown threads. -/
def historyEffects (env : Env) (msg : GmailMessage) (tid mid : String) :
    List Effect :=
  if (env.activeThreads.find? (fun p => p.1 == tid)).isSome then
    let fromH := fromHeaderOf msg
    let senderType :=
      if strContains (lowerStr fromH) (lowerStr (myEmailOf env)) then "agent"
      else "user"
    [Effect.dbStore (parseAngleEmail fromH) (userNameOf env msg) tid mid
      senderType (extract_email_body msg)
      (headerValue msg.payload.headers "subject")]
  else []

/-- Effects of `enhanced_process_incoming_message` past the idempotency
mark (`google_cloud.py` lines 239-342): the best-effort history write, the
three validation gates (self-echo, not-addressed-to-agent, `noreply`), the
workflow-state load, the step-4 guard, then either the AI retry path
(whose empty outcome is replaced by the fallback text) or the default
`workflow_manager` call with an empty body. -/
def processEffects (env : Env) (msg : GmailMessage) (tid mid : String) :
    List Effect :=
  let myEmail := myEmailOf env
  let hist := historyEffects env msg tid mid
  if strContains (lowerStr (fromHeaderOf msg)) (lowerStr myEmail) then hist
  else if !strContains (lowerStr (toHeaderOf msg)) (lowerStr myEmail) then hist
  else if strContains (lowerStr (fromHeaderOf msg)) "noreply" then hist
  else
    let effs := hist ++ [Effect.loadState tid]
    match lookupWorkflow env.workflowTable tid with
    | none => effs
    | some ws =>
      if 4 ≤ ws.step then effs
      else if env.chatApp = true ∧ threadEmail env tid ≠ "" then
        let r := aiLoop env.genResult (List.range 3)
        let replyBody := match r.2 with | some s => s | none => fallbackText
        effs ++ r.1 ++
          workflow_manager env tid ws.step replyBody (userNameOf env msg)
      else
        effs ++ workflow_manager env tid ws.step "" "Unknown"

/-- Process-lifetime mutable state of the engine: the idempotency store
(`self.processed_messages`). -/
structure ProcState where
  processed : List String
deriving Repr, DecidableEq

/-- `enhanced_process_incoming_message` (`google_cloud.py` lines 215-345):
drop messages without `threadId` or `id`; drop already-processed ids with
no effect; otherwise mark the id as processed first and then run the
processing pipeline. -/
def enhancedProcess (env : Env) (st : ProcState) (msg : GmailMessage) :
    ProcState × List Effect :=
  match msg.threadId, msg.id with
  | none, _ => (st, [])
  | some _, none => (st, [])
  | some tid, some mid =>
    if mid ∈ st.processed then (st, [])
    else (⟨mid :: st.processed⟩, processEffects env msg tid mid)

/-- A decoded push event: the JSON payload failed to parse, or carried no
`historyId`, or carried one (numeric value; Python treats `0` as falsy). -/
inductive PushEvent where
  | malformed
  | missingHistoryId
  | withHistoryId (hid : Nat)
deriving Repr, DecidableEq

/-- `str(max(1, int(history_id) - 100))`: the start of the incremental
history window (`google_cloud.py` line 654). -/
def historyStart (hid : Nat) : Nat := max 1 (hid - 100)

/-- The per-id fetch-and-process loop of `pubsub_listener`
(`google_cloud.py` lines 674-683): a failed fetch is skipped silently,
a fetched message runs the full incoming-message pipeline, threading the
idempotency store. -/
def processIds (env : Env) : ProcState → List String → ProcState × List Effect
  | st, [] => (st, [])
  | st, i :: rest =>
    match env.fullMessage i with
    | none => processIds env st rest
    | some m =>
      let r := enhancedProcess env st m
      let r2 := processIds env r.1 rest
      (r2.1, r.2 ++ r2.2)

/-- `pubsub_listener` (`google_cloud.py` lines 639-686): a malformed
payload, a missing or falsy history id, and a double ingestion failure
all drop the event silently; otherwise the history window is queried,
falling back to the recent-messages list, and each candidate id is
processed.  The function is total: no error escapes it. -/
def pubsub_listener (env : Env) (st : ProcState) (ev : PushEvent) :
    ProcState × List Effect :=
  match ev with
  | .malformed => (st, [])
  | .missingHistoryId => (st, [])
  | .withHistoryId hid =>
    if hid = 0 then (st, [])
    else
      match env.historyList (historyStart hid) with
      | some ids => processIds env st ids
      | none =>
        match env.recentList with
        | some ids => processIds env st ids
        | none => (st, [])

/-- The subscription callback of `start_listening` (`google_cloud.py`
lines 615-622): run the listener, then acknowledge; the acknowledgement
also happens on the error path, so it follows processing regardless of
outcome. -/
def listenerCallback (env : Env) (st : ProcState) (ev : PushEvent) :
    ProcState × List Effect :=
  let r := pubsub_listener env st ev
  (r.1, r.2 ++ [Effect.ack])

/-- `user_data` of `DatabaseManager.store_message`: `none` models a
missing dictionary key. -/
structure UserData where
  email : Option String
  name : Option String
deriving Repr, DecidableEq

/-- `message_data` of `DatabaseManager.store_message`: `none` models a
missing dictionary key. -/
structure MessageData where
  thread_id : Option String
  message_id : Option String
  sender : Option String
  body : Option String
  subject : Option String
  timestamp : Option String
deriving Repr, DecidableEq

/-- Database-layer outcomes for one `store_message` call: whether the user
select succeeds and finds a row (`none` models a raised select), and
whether the two inserts succeed. -/
structure DbEnv where
  userSelect : Option Bool
  userInsertOk : Bool
  msgInsertOk : Bool
deriving Repr, DecidableEq

/-- The first inner `try` of `store_message` (`database.py` lines
93-112): select the user by email, insert when absent; any error —
database or missing key — is caught by the inner handler, which logs a
message interpolating `user_data["email"]` and swallows the error, unless
that very access raises: a missing `email` key escapes as a `KeyError`
(the `.error` result, carrying the key name). -/
def tryUpsertUser (env : DbEnv) (u : UserData) : Except String Unit :=
  let body : Except String Unit :=
    match u.email with
    | none => .error "'email'"
    | some _ =>
      match env.userSelect with
      | none => .error "select raised"
      | some found =>
        if found then .ok ()
        else
          match u.name with
          | none => .error "'name'"
          | some _ => if env.userInsertOk then .ok () else .error "insert raised"
  match body with
  | .ok _ => .ok ()
  | .error _ =>
    match u.email with
    | some _ => .ok ()
    | none => .error "'email'"

/-- The second inner `try` of `store_message` (`database.py` lines
118-135): build and insert the message row; any error is caught by the
inner handler, which logs `user_data["email"]` and swallows it, a missing
`email` key escaping as a `KeyError` exactly as in `tryUpsertUser`. -/
def tryInsertMessage (env : DbEnv) (u : UserData) (m : MessageData) :
    Except String Unit :=
  let body : Except String Unit :=
    match m.thread_id with
    | none => .error "'thread_id'"
    | some _ =>
      match m.message_id with
      | none => .error "'message_id'"
      | some _ =>
        match u.email with
        | none => .error "'email'"
        | some _ =>
          match m.sender with
          | none => .error "'sender'"
          | some _ =>
            match m.body with
            | none => .error "'body'"
            | some _ =>
              match m.subject with
              | none => .error "'subject'"
              | some _ =>
                match m.timestamp with
                | none => .error "'timestamp'"
                | some _ =>
                  if env.msgInsertOk then .ok () else .error "insert raised"
  match body with
  | .ok _ => .ok ()
  | .error _ =>
    match u.email with
    | some _ => .ok ()
    | none => .error "'email'"

/-- `DatabaseManager.store_message` (`database.py` lines 65-148): run the
two inner blocks and return `(True, None)`; only a `KeyError` escaping an
inner handler reaches the outer `except KeyError`, producing
`(False, "Missing required data field: ...")`. -/
def store_message (env : DbEnv) (u : UserData) (m : MessageData) :
    Bool × Option String :=
  match tryUpsertUser env u with
  | .error k => (false, some ("Missing required data field: " ++ k))
  | .ok _ =>
    match tryInsertMessage env u m with
    | .error k => (false, some ("Missing required data field: " ++ k))
    | .ok _ => (true, none)

/-- The status label written for a successful transition out of step
`step`: `completed` from step 3, `sent_followup_step+1` below. -/
def statusOfStep (step : Nat) : String :=
  if step == 3 then "completed" else "sent_followup_" ++ toString (step + 1)

/-! ## Helper lemmas -/

lemma lastOfAppend {α : Type} (l : List α) (a : α) :
    (l ++ [a]).getLast? = some a := by
  rw [List.getLast?_append_cons]; rfl

/-- On the successful-reply path `workflow_manager` is the dispatcher
effects followed by exactly one state upsert to step `step + 1`. -/
lemma workflow_manager_eq (env : Env) (tid : String) (step : Nat)
    (body name : String) (h : step ≤ 3) (hb : body ≠ "") :
    workflow_manager env tid step body name =
      send_reply_email env tid body name ++
        [Effect.saveState tid (step + 1) (statusOfStep step)] := by
  unfold workflow_manager statusOfStep
  rw [if_pos h, if_pos hb]
  by_cases h3 : step = 3
  · subst h3; simp
  · have hb3 : (step == 3) = false := by simpa using h3
    simp [hb3]

/-- With an empty reply body `workflow_manager` only prints a skip
notice: no effect at all. -/
lemma workflow_manager_empty_body (env : Env) (tid : String) (step : Nat)
    (name : String) : workflow_manager env tid step "" name = [] := by
  unfold workflow_manager
  by_cases h : step ≤ 3 <;> simp [h]

/-! ## Concrete test fixtures -/

/-- A happy-path environment: AI chat configured, thread `t1` active for
`u@x.com` at step 0, every send succeeding, every AI attempt raising. -/
def envA : Env where
  gmailAddress := "agent@x.com"
  profileEmail := ""
  chatApp := true
  activeThreads := [("t1", "u@x.com")]
  dbUserName := fun _ => none
  workflowTable := [("t1", ⟨0, "sent_initial"⟩)]
  genResult := fun _ => none
  threadMessages := fun _ => [[⟨"From", "Alice <u@x.com>"⟩, ⟨"Subject", "Hi"⟩]]
  replyId := "r1"
  sendOutcome := fun _ _ => true
  historyList := fun _ => none
  recentList := none
  fullMessage := fun _ => none

/-- `envA` with every provider send attempt failing. -/
def envSendFail : Env := { envA with sendOutcome := fun _ _ => false }

/-- A valid inbound user message on thread `t1`. -/
def msgA : GmailMessage where
  id := some "m1"
  threadId := some "t1"
  snippet := "snip"
  payload :=
    { headers := [⟨"From", "Alice <u@x.com>"⟩, ⟨"To", "agent@x.com"⟩,
        ⟨"Subject", "Hi"⟩]
      parts := some [⟨"text/plain", "Thanks!"⟩] }

/-! ## Claims -/

/-- Claim C1: for a thread at step S below 4, when a non-empty generated
reply body is available and the reply is dispatched, the workflow state
stored for the thread is step S+1 with status `completed` when S was 3 and
`sent_followup_S+1` otherwise — the state upsert is the final effect of
`workflow_manager`. -/
theorem c1_step_advance_on_dispatch (env : Env) (tid : String) (step : Nat)
    (body name : String) (hstep : step < 4) (hbody : body ≠ "")
    (hsent : ∃ i, Effect.sendTry tid i true ∈
      workflow_manager env tid step body name) :
    (workflow_manager env tid step body name).getLast? =
      some (Effect.saveState tid (step + 1) (statusOfStep step)) := by
  have h3 : step ≤ 3 := by omega
  rw [workflow_manager_eq env tid step body name h3 hbody]
  exact lastOfAppend _ _

/-- Witness for C1: on `envA` at step 0 with body `"Hello"` the reply is
dispatched on the first attempt and the stored state is step 1 /
`sent_followup_1`. -/
theorem c1_step_advance_on_dispatch_w :
    (0 : Nat) < 4 ∧ ("Hello" : String) ≠ "" ∧
    Effect.sendTry "t1" 0 true ∈ workflow_manager envA "t1" 0 "Hello" "N" ∧
    (workflow_manager envA "t1" 0 "Hello" "N").getLast? =
      some (Effect.saveState "t1" 1 "sent_followup_1") := by
  refine ⟨by norm_num, by decide, by decide, ?_⟩
  have h := c1_step_advance_on_dispatch envA "t1" 0 "Hello" "N"
    (by norm_num) (by decide) ⟨0, by decide⟩
  simpa [statusOfStep] using h

/-- Number of provider send attempts recorded in an effect trace. -/
def countSendTries (l : List Effect) : Nat :=
  (l.filter fun e =>
    match e with | .sendTry _ _ _ => true | _ => false).length

/-- Counterexample to C5: in the run in which every attempt fails — the
only run with the maximal number of attempts — the retry loop makes
exactly 3 attempts with inter-attempt delays exactly 1 and 2: a delay of
4 units never occurs, contradicting "delays of 1, 2 and 4 time units
between successive attempts". -/
theorem c5_delay_counterexample :
    countSendTries (sendLoop (fun _ => false) "t" [] (List.range 3)).1 = 3 ∧
    ((sendLoop (fun _ => false) "t" [] (List.range 3)).1.filter
      (fun e => match e with | .sleep _ => true | _ => false)) =
      [Effect.sleep 1, Effect.sleep 2] ∧
    Effect.sleep 4 ∉ (sendLoop (fun _ => false) "t" [] (List.range 3)).1 := by
  decide

/-- The retry loop records at most one attempt per iteration beyond the
attempts already present in `afterOk`. -/
lemma sendLoop_count (outcome : Nat → Bool) (tid : String)
    (afterOk : List Effect) (l : List Nat) :
    countSendTries (sendLoop outcome tid afterOk l).1 ≤
      l.length + countSendTries afterOk := by
  induction l with
  | nil => simp [sendLoop, countSendTries]
  | cons i rest ih =>
    simp only [sendLoop]
    split
    · simp [countSendTries, List.filter]
      omega
    · split
      · simp [countSendTries, List.filter]
        omega
      · simp only [countSendTries, List.filter, List.length_cons] at ih ⊢
        omega

/-- Claim C5 (amended): every outbound send makes at most 3 provider
attempts, and the delays between successive attempts are 1 and 2 time
units (`2 ^ k` after failed attempt `k`, for `k < 2`); no delay of 4
units ever occurs because no delay follows the final attempt. -/
theorem c5_retry_bounds (outcome : Nat → Bool) (tid : String)
    (afterOk : List Effect) (hA : countSendTries afterOk = 0) :
    countSendTries (sendLoop outcome tid afterOk (List.range 3)).1 ≤ 3 ∧
    (∀ d, Effect.sleep d ∈ (sendLoop outcome tid [] (List.range 3)).1 →
      d = 1 ∨ d = 2) := by
  have hr : List.range 3 = [0, 1, 2] := rfl
  constructor
  · have h := sendLoop_count outcome tid afterOk (List.range 3)
    simpa [hA] using h
  · rw [hr]
    intro d hd
    cases h0 : outcome 0 <;> cases h1 : outcome 1 <;> cases h2 : outcome 2 <;>
      simp [sendLoop, h0, h1, h2] at hd <;> tauto

/-- Witness for C5: the all-fail run stays within 3 attempts. -/
theorem c5_retry_bounds_w :
    countSendTries ([] : List Effect) = 0 ∧
    countSendTries (sendLoop (fun _ => false) "t" [] (List.range 3)).1 ≤ 3 := by
  exact ⟨rfl, (c5_retry_bounds (fun _ => false) "t" [] rfl).1⟩

/-- The shape of the retry loop when every attempt fails: three failed
attempts, delays 1 and 2, overall failure. -/
lemma sendLoop_all_fail (outcome : Nat → Bool) (tid : String)
    (afterOk : List Effect) (h : ∀ i, outcome i = false) :
    sendLoop outcome tid afterOk (List.range 3) =
      ([Effect.sendTry tid 0 false, Effect.sleep 1, Effect.sendTry tid 1 false,
        Effect.sleep 2, Effect.sendTry tid 2 false], false) := by
  have hr : List.range 3 = [0, 1, 2] := rfl
  rw [hr]
  simp [sendLoop, h 0, h 1, h 2]

/-- On send exhaustion `send_reply_email` returns before the database
write: its trace is empty (no external message to reply to) or exactly the
three failed attempts with their delays. -/
lemma send_reply_all_fail (env : Env) (tid body name : String)
    (h : ∀ i, env.sendOutcome tid i = false) :
    send_reply_email env tid body name = [] ∨
    send_reply_email env tid body name =
      [Effect.sendTry tid 0 false, Effect.sleep 1, Effect.sendTry tid 1 false,
       Effect.sleep 2, Effect.sendTry tid 2 false] := by
  have h2 := sendLoop_all_fail (env.sendOutcome tid) tid [Effect.sleep 3] h
  simp only [send_reply_email, h2]
  split
  · exact Or.inl rfl
  · exact Or.inr rfl

/-- Counterexample to C6: on `envSendFail` all three reply attempts fail,
yet the step is advanced (the state upsert to step 1 happens), while no
send succeeds and no agent Message record is written — contradicting "the
thread's step is not advanced". -/
theorem c6_advance_counterexample :
    (∀ i, i < 3 → envSendFail.sendOutcome "t1" i = false) ∧
    Effect.saveState "t1" 1 "sent_followup_1" ∈
      workflow_manager envSendFail "t1" 0 "Hi" "N" ∧
    (∀ e ∈ workflow_manager envSendFail "t1" 0 "Hi" "N",
      (match e with | Effect.sendTry _ _ true => true | _ => false) = false) ∧
    (∀ e ∈ workflow_manager envSendFail "t1" 0 "Hi" "N",
      (match e with | Effect.dbStore _ _ _ _ _ _ _ => true | _ => false) = false) := by
  decide

/-- Claim C6 (amended): when all 3 reply-send attempts fail, the raised
error is caught inside `send_reply_email`, which returns before the
database write — so no agent Message record is written for the turn — but
the failure is not propagated to `workflow_manager`, which still advances
the thread's step. -/
theorem c6_exhaustion (env : Env) (tid : String) (step : Nat)
    (body name : String) (hstep : step ≤ 3) (hbody : body ≠ "")
    (hfail : ∀ i, env.sendOutcome tid i = false) :
    (∀ ue n t mi sd b subj, Effect.dbStore ue n t mi sd b subj ∉
      workflow_manager env tid step body name) ∧
    (workflow_manager env tid step body name).getLast? =
      some (Effect.saveState tid (step + 1) (statusOfStep step)) := by
  rw [workflow_manager_eq env tid step body name hstep hbody]
  constructor
  · intro ue n t mi sd b subj hmem
    rcases send_reply_all_fail env tid body name hfail with he | he <;>
      rw [he] at hmem <;> simp at hmem
  · exact lastOfAppend _ _

/-- Witness for C6 (amended): concrete all-fail run at step 0. -/
theorem c6_exhaustion_w :
    (0 : Nat) ≤ 3 ∧ ("Hi" : String) ≠ "" ∧
    (∀ i, envSendFail.sendOutcome "t1" i = false) ∧
    (workflow_manager envSendFail "t1" 0 "Hi" "N").getLast? =
      some (Effect.saveState "t1" 1 "sent_followup_1") := by
  refine ⟨by norm_num, by decide, fun i => rfl, ?_⟩
  have h := c6_exhaustion envSendFail "t1" 0 "Hi" "N"
    (by norm_num) (by decide) (fun i => rfl)
  simpa [statusOfStep] using h.2

/-- Multipart message with a `text/html` part placed before a
`text/plain` part. -/
def msgOrder : GmailMessage where
  id := some "m7"
  threadId := some "t7"
  snippet := "s"
  payload :=
    { parts := some [⟨"text/html", "Different"⟩, ⟨"text/plain", "Hello"⟩] }

/-- The multipart example of the claim: one `text/plain` part carrying new
content followed by quoted history. -/
def msgPlainEx : GmailMessage where
  id := some "m8"
  threadId := some "t8"
  snippet := "s"
  payload :=
    { parts := some [⟨"text/plain", "Hello\n\nFrom: X\nSent: Y\n> quoted"⟩] }

/-- Counterexample to C7: `msgOrder` has a `text/plain` part whose
extracted content is `"Hello"`, but because a `text/html` part precedes
it, extraction returns that part's text `"Different"` — `text/plain` is
NOT preferred regardless of part order. -/
theorem c7_order_counterexample :
    msgOrder.payload.parts =
      some [⟨"text/html", "Different"⟩, ⟨"text/plain", "Hello"⟩] ∧
    extract_new_content "Hello" = "Hello" ∧
    extract_email_body msgOrder = "Different" ∧
    extract_email_body msgOrder ≠ "Hello" := by
  decide

/-- Every part before `p` skipped by the scan: without body data, or of a
MIME type other than `text/plain` and `text/html`. -/
lemma scanParts_skip (ps1 l : List MimePart)
    (h : ∀ q ∈ ps1, q.data = "" ∨
      (q.mimeType ≠ "text/plain" ∧ q.mimeType ≠ "text/html")) :
    scanParts (ps1 ++ l) = scanParts l := by
  induction ps1 with
  | nil => rfl
  | cons q qs ih =>
    have hq := h q (by simp)
    have hqs : ∀ q' ∈ qs, q'.data = "" ∨
        (q'.mimeType ≠ "text/plain" ∧ q'.mimeType ≠ "text/html") :=
      fun q' hq' => h q' (by simp [hq'])
    rcases hq with hq | ⟨h1, h2⟩
    · simp [scanParts, hq, ih hqs]
    · by_cases hd : q.data = ""
      · simp [scanParts, hd, ih hqs]
      · simp [scanParts, hd, h1, h2, ih hqs]

/-- Claim C7 (amended): body extraction scans the parts in part order and
returns the truncated content of the FIRST part that has body data and is
of MIME type `text/plain` or `text/html` (the latter tag-stripped);
`text/plain` is not preferred over an earlier `text/html` part.  The
claim's concrete example extracts to exactly `"Hello"` (see the
witness). -/
theorem c7_first_match (msg : GmailMessage) (ps1 ps2 : List MimePart)
    (p : MimePart) (hparts : msg.payload.parts = some (ps1 ++ p :: ps2))
    (hskip : ∀ q ∈ ps1, q.data = "" ∨
      (q.mimeType ≠ "text/plain" ∧ q.mimeType ≠ "text/html"))
    (hdata : p.data ≠ "")
    (hmime : p.mimeType = "text/plain" ∨ p.mimeType = "text/html") :
    extract_email_body msg =
      (if p.mimeType = "text/plain" then extract_new_content p.data
       else extract_new_content (stripHtml p.data)) := by
  have hres : partsResult msg =
      some (if p.mimeType = "text/plain" then extract_new_content p.data
        else extract_new_content (stripHtml p.data)) := by
    simp only [partsResult, hparts]
    rw [scanParts_skip ps1 (p :: ps2) hskip]
    rcases hmime with hm | hm
    · simp [scanParts, hdata, hm]
    · have hne : p.mimeType ≠ "text/plain" := by rw [hm]; decide
      simp [scanParts, hdata, hm, hne]
  unfold extract_email_body
  rw [hres]

/-- Witness for C7 (amended): the claim's own example — a multipart input
whose `text/plain` part is `"Hello\n\nFrom: X\nSent: Y\n> quoted"` —
extracts to exactly `"Hello"`. -/
theorem c7_first_match_w :
    msgPlainEx.payload.parts =
      some ([] ++ (⟨"text/plain", "Hello\n\nFrom: X\nSent: Y\n> quoted"⟩ :
        MimePart) :: []) ∧
    extract_email_body msgPlainEx = "Hello" := by
  refine ⟨rfl, ?_⟩
  have h := c7_first_match msgPlainEx [] []
    ⟨"text/plain", "Hello\n\nFrom: X\nSent: Y\n> quoted"⟩
    rfl (by simp) (by decide) (Or.inl rfl)
  rw [h]
  decide

/-- Claim C3: redelivery of an already-seen message id is a complete
no-op (no state change, no effect of any kind), and on the first delivery
the id is marked as processed unconditionally — before and regardless of
the outcome of any downstream processing. -/
theorem c3_idempotency (env : Env) (st : ProcState) (msg : GmailMessage)
    (tid mid : String) (hth : msg.threadId = some tid)
    (hid : msg.id = some mid) :
    (mid ∈ st.processed → enhancedProcess env st msg = (st, [])) ∧
    (mid ∉ st.processed →
      (enhancedProcess env st msg).1.processed = mid :: st.processed) := by
  constructor
  · intro h
    simp [enhancedProcess, hth, hid, h]
  · intro h
    simp [enhancedProcess, hth, hid, h]

/-- Witness for C3: `msgA` redelivered after `m1` was seen is a no-op;
delivered fresh, `m1` is marked. -/
theorem c3_idempotency_w :
    msgA.threadId = some "t1" ∧ msgA.id = some "m1" ∧
    enhancedProcess envA ⟨["m1"]⟩ msgA = (⟨["m1"]⟩, []) ∧
    (enhancedProcess envA ⟨[]⟩ msgA).1.processed = ["m1"] := by
  refine ⟨rfl, rfl, ?_, ?_⟩
  · exact (c3_idempotency envA ⟨["m1"]⟩ msgA "t1" "m1" rfl rfl).1 (by decide)
  · have h := (c3_idempotency envA ⟨[]⟩ msgA "t1" "m1" rfl rfl).2 (by decide)
    simpa using h

/-- Every effect of the best-effort history write is a `dbStore` for the
processed thread and message id. -/
lemma historyEffects_shape (env : Env) (msg : GmailMessage) (tid mid : String)
    (e : Effect) (he : e ∈ historyEffects env msg tid mid) :
    ∃ ue n sd b subj, e = Effect.dbStore ue n tid mid sd b subj := by
  unfold historyEffects at he
  split at he
  · simp only [List.mem_singleton] at he
    exact ⟨_, _, _, _, _, he⟩
  · simp at he

/-- When any validation gate fires, processing stops right after the
best-effort history write. -/
lemma processEffects_reject (env : Env) (msg : GmailMessage) (tid mid : String)
    (h : strContains (lowerStr (fromHeaderOf msg)) (lowerStr (myEmailOf env)) = true ∨
         strContains (lowerStr (toHeaderOf msg)) (lowerStr (myEmailOf env)) = false ∨
         strContains (lowerStr (fromHeaderOf msg)) "noreply" = true) :
    processEffects env msg tid mid = historyEffects env msg tid mid := by
  by_cases h1 : strContains (lowerStr (fromHeaderOf msg)) (lowerStr (myEmailOf env)) = true
  · simp [processEffects, h1]
  · have h1f : strContains (lowerStr (fromHeaderOf msg)) (lowerStr (myEmailOf env)) = false := by
      simpa using h1
    by_cases h2 : strContains (lowerStr (toHeaderOf msg)) (lowerStr (myEmailOf env)) = true
    · rcases h with h | h | h
      · exact absurd h h1
      · rw [h] at h2; cases h2
      · simp [processEffects, h1f, h2, h]
    · have h2f : strContains (lowerStr (toHeaderOf msg)) (lowerStr (myEmailOf env)) = false := by
        simpa using h2
      simp [processEffects, h1f, h2f]

/-- Claim C4: a message whose `From` contains the agent's address
(case-insensitively), or whose `To` does not contain it, or whose `From`
contains `noreply`, is rejected — no workflow-state load or store, no
send attempt, no generation attempt; a message passing all three gates
proceeds to workflow processing (the state load happens). -/
theorem c4_validation_gates (env : Env) (st : ProcState) (msg : GmailMessage)
    (tid mid : String) (hth : msg.threadId = some tid)
    (hid : msg.id = some mid) (hnew : mid ∉ st.processed) :
    ((strContains (lowerStr (fromHeaderOf msg)) (lowerStr (myEmailOf env)) = true ∨
      strContains (lowerStr (toHeaderOf msg)) (lowerStr (myEmailOf env)) = false ∨
      strContains (lowerStr (fromHeaderOf msg)) "noreply" = true) →
      (∀ t, Effect.loadState t ∉ (enhancedProcess env st msg).2) ∧
      (∀ t s stat, Effect.saveState t s stat ∉ (enhancedProcess env st msg).2) ∧
      (∀ t i b, Effect.sendTry t i b ∉ (enhancedProcess env st msg).2) ∧
      (∀ i, Effect.genAttempt i ∉ (enhancedProcess env st msg).2)) ∧
    ((strContains (lowerStr (fromHeaderOf msg)) (lowerStr (myEmailOf env)) = false ∧
      strContains (lowerStr (toHeaderOf msg)) (lowerStr (myEmailOf env)) = true ∧
      strContains (lowerStr (fromHeaderOf msg)) "noreply" = false) →
      Effect.loadState tid ∈ (enhancedProcess env st msg).2) := by
  have heq : (enhancedProcess env st msg).2 = processEffects env msg tid mid := by
    simp [enhancedProcess, hth, hid, hnew]
  constructor
  · intro hrej
    rw [heq, processEffects_reject env msg tid mid hrej]
    refine ⟨?_, ?_, ?_, ?_⟩
    · intro t hmem
      obtain ⟨ue, n, sd, b, subj, he⟩ :=
        historyEffects_shape env msg tid mid _ hmem
      simp at he
    · intro t s stat hmem
      obtain ⟨ue, n, sd, b, subj, he⟩ :=
        historyEffects_shape env msg tid mid _ hmem
      simp at he
    · intro t i b hmem
      obtain ⟨ue, n, sd, b', subj, he⟩ :=
        historyEffects_shape env msg tid mid _ hmem
      simp at he
    · intro i hmem
      obtain ⟨ue, n, sd, b, subj, he⟩ :=
        historyEffects_shape env msg tid mid _ hmem
      simp at he
  · rintro ⟨hv1, hv2, hv3⟩
    rw [heq]
    rcases hws : lookupWorkflow env.workflowTable tid with _ | ws
    · simp [processEffects, hv1, hv2, hv3, hws]
    · by_cases h4 : 4 ≤ ws.step
      · simp [processEffects, hv1, hv2, hv3, hws, h4]
      · by_cases hch : env.chatApp = true ∧ threadEmail env tid ≠ ""
        · simp [processEffects, hv1, hv2, hv3, hws, h4, hch]
        · simp [processEffects, hv1, hv2, hv3, hws, h4, hch]

/-- Witness for C4: `msgA` passes all gates on `envA` and reaches the
state load; the same message with the agent as sender is rejected with no
workflow effect. -/
theorem c4_validation_gates_w :
    (strContains (lowerStr (fromHeaderOf msgA)) (lowerStr (myEmailOf envA)) = false ∧
     strContains (lowerStr (toHeaderOf msgA)) (lowerStr (myEmailOf envA)) = true ∧
     strContains (lowerStr (fromHeaderOf msgA)) "noreply" = false) ∧
    Effect.loadState "t1" ∈ (enhancedProcess envA ⟨[]⟩ msgA).2 := by
  refine ⟨⟨by decide, by decide, by decide⟩, ?_⟩
  exact (c4_validation_gates envA ⟨[]⟩ msgA "t1" "m1" rfl rfl (by decide)).2
    ⟨by decide, by decide, by decide⟩

/-- The retry loop never records a state upsert. -/
lemma sendLoop_no_save (outcome : Nat → Bool) (tid : String)
    (afterOk : List Effect) (l : List Nat) (t : String) (s : Nat)
    (stat : String) (ha : Effect.saveState t s stat ∉ afterOk) :
    Effect.saveState t s stat ∉ (sendLoop outcome tid afterOk l).1 := by
  induction l with
  | nil => simp [sendLoop]
  | cons i rest ih =>
    simp only [sendLoop]
    split
    · simp [ha]
    · split
      · simp
      · simp [ih]

/-- `send_reply_email` never records a state upsert. -/
lemma send_reply_no_save (env : Env) (tid body name : String)
    (t : String) (s : Nat) (stat : String) :
    Effect.saveState t s stat ∉ send_reply_email env tid body name := by
  simp only [send_reply_email]
  split
  · simp
  · split
    · intro hmem
      rcases List.mem_append.mp hmem with hm | hm
      · exact sendLoop_no_save _ _ _ _ _ _ _ (by simp) hm
      · simp at hm
    · exact sendLoop_no_save _ _ _ _ _ _ _ (by simp)

/-- Every effect of the AI retry loop is a generation attempt. -/
lemma aiLoop_mem (gen : Nat → Option String) (l : List Nat) (e : Effect)
    (he : e ∈ (aiLoop gen l).1) : ∃ i, e = Effect.genAttempt i := by
  induction l with
  | nil => simp [aiLoop] at he
  | cons i rest ih =>
    simp only [aiLoop] at he
    rcases hg : gen i with _ | s
    · rw [hg] at he
      simp at he
      rcases he with he | he
      · exact ⟨i, he⟩
      · exact ih he
    · rw [hg] at he
      by_cases hs : s ≠ ""
      · simp [hs] at he
        exact ⟨i, he⟩
      · simp [hs] at he
        rcases he with he | he
        · exact ⟨i, he⟩
        · exact ih he

/-- Any state upsert recorded by `workflow_manager` targets the processed
thread and raises the step by exactly one (from a step at most 3). -/
lemma workflow_manager_save_mem (env : Env) (tid : String) (step : Nat)
    (body name : String) (t : String) (s : Nat) (stat : String)
    (h : Effect.saveState t s stat ∈ workflow_manager env tid step body name) :
    t = tid ∧ s = step + 1 ∧ step ≤ 3 := by
  by_cases h1 : step ≤ 3
  · by_cases h2 : body ≠ ""
    · rw [workflow_manager_eq env tid step body name h1 h2] at h
      rcases List.mem_append.mp h with hm | hm
      · exact absurd hm (send_reply_no_save env tid body name t s stat)
      · simp at hm
        exact ⟨hm.1, hm.2.1, h1⟩
    · have hb : body = "" := by simpa using h2
      subst hb
      rw [workflow_manager_empty_body] at h
      simp at h
  · unfold workflow_manager at h
    rw [if_neg h1] at h
    simp at h

/-- At a terminal step (4 or more) processing ends right after the state
load. -/
lemma processEffects_terminal (env : Env) (msg : GmailMessage)
    (tid mid : String) (ws : WorkflowState)
    (hv1 : strContains (lowerStr (fromHeaderOf msg)) (lowerStr (myEmailOf env)) = false)
    (hv2 : strContains (lowerStr (toHeaderOf msg)) (lowerStr (myEmailOf env)) = true)
    (hv3 : strContains (lowerStr (fromHeaderOf msg)) "noreply" = false)
    (hws : lookupWorkflow env.workflowTable tid = some ws)
    (h4 : 4 ≤ ws.step) :
    processEffects env msg tid mid =
      historyEffects env msg tid mid ++ [Effect.loadState tid] := by
  simp [processEffects, hv1, hv2, hv3, hws, h4]

/-- Any state upsert of the processing pipeline comes from
`workflow_manager` on the loaded step, which is then below 4. -/
lemma processEffects_save_cases (env : Env) (msg : GmailMessage)
    (tid mid : String) (ws : WorkflowState)
    (hv1 : strContains (lowerStr (fromHeaderOf msg)) (lowerStr (myEmailOf env)) = false)
    (hv2 : strContains (lowerStr (toHeaderOf msg)) (lowerStr (myEmailOf env)) = true)
    (hv3 : strContains (lowerStr (fromHeaderOf msg)) "noreply" = false)
    (hws : lookupWorkflow env.workflowTable tid = some ws)
    (t : String) (s : Nat) (stat : String)
    (hmem : Effect.saveState t s stat ∈ processEffects env msg tid mid) :
    ws.step < 4 ∧ ∃ body name,
      Effect.saveState t s stat ∈ workflow_manager env tid ws.step body name := by
  have hnotHist : Effect.saveState t s stat ∉ historyEffects env msg tid mid := by
    intro hm
    obtain ⟨_, _, _, _, _, he⟩ := historyEffects_shape env msg tid mid _ hm
    simp at he
  by_cases h4 : 4 ≤ ws.step
  · rw [processEffects_terminal env msg tid mid ws hv1 hv2 hv3 hws h4] at hmem
    rcases List.mem_append.mp hmem with hm | hm
    · exact absurd hm hnotHist
    · simp at hm
  · refine ⟨by omega, ?_⟩
    by_cases hch : env.chatApp = true ∧ threadEmail env tid ≠ ""
    · have hred : processEffects env msg tid mid =
          historyEffects env msg tid mid ++ [Effect.loadState tid] ++
          (aiLoop env.genResult (List.range 3)).1 ++
          workflow_manager env tid ws.step
            (match (aiLoop env.genResult (List.range 3)).2 with
              | some sr => sr
              | none => fallbackText) (userNameOf env msg) := by
        simp [processEffects, hv1, hv2, hv3, hws, h4, hch]
      rw [hred] at hmem
      rcases List.mem_append.mp hmem with hm | hm
      · rcases List.mem_append.mp hm with hm2 | hm2
        · rcases List.mem_append.mp hm2 with hm3 | hm3
          · exact absurd hm3 hnotHist
          · simp at hm3
        · obtain ⟨i, he⟩ := aiLoop_mem _ _ _ hm2
          simp at he
      · exact ⟨_, _, hm⟩
    · have hred : processEffects env msg tid mid =
          historyEffects env msg tid mid ++ [Effect.loadState tid] := by
        simp [processEffects, hv1, hv2, hv3, hws, h4, hch,
          workflow_manager_empty_body]
      rw [hred] at hmem
      rcases List.mem_append.mp hmem with hm | hm
      · exact absurd hm hnotHist
      · simp at hm

/-- Claim C8: at a stored step of 4 or more, a further valid inbound
message causes no workflow-state upsert and no send attempt; and any
state upsert the pipeline ever performs targets the processed thread and
sets exactly step+1 from a loaded step below 4 — so the step is strictly
increasing whenever written, hence monotonically non-decreasing, and
step 4 is terminal. -/
theorem c8_terminal_monotone (env : Env) (st : ProcState)
    (msg : GmailMessage) (tid mid : String) (ws : WorkflowState)
    (hth : msg.threadId = some tid) (hid : msg.id = some mid)
    (hnew : mid ∉ st.processed)
    (hv1 : strContains (lowerStr (fromHeaderOf msg)) (lowerStr (myEmailOf env)) = false)
    (hv2 : strContains (lowerStr (toHeaderOf msg)) (lowerStr (myEmailOf env)) = true)
    (hv3 : strContains (lowerStr (fromHeaderOf msg)) "noreply" = false)
    (hws : lookupWorkflow env.workflowTable tid = some ws) :
    (4 ≤ ws.step →
      (∀ t s stat, Effect.saveState t s stat ∉ (enhancedProcess env st msg).2) ∧
      (∀ t i b, Effect.sendTry t i b ∉ (enhancedProcess env st msg).2)) ∧
    (∀ t s stat, Effect.saveState t s stat ∈ (enhancedProcess env st msg).2 →
      t = tid ∧ s = ws.step + 1 ∧ ws.step < 4) := by
  have heq : (enhancedProcess env st msg).2 = processEffects env msg tid mid := by
    simp [enhancedProcess, hth, hid, hnew]
  constructor
  · intro h4
    rw [heq, processEffects_terminal env msg tid mid ws hv1 hv2 hv3 hws h4]
    constructor
    · intro t s stat hmem
      rcases List.mem_append.mp hmem with hm | hm
      · obtain ⟨_, _, _, _, _, he⟩ := historyEffects_shape env msg tid mid _ hm
        simp at he
      · simp at hm
    · intro t i b hmem
      rcases List.mem_append.mp hmem with hm | hm
      · obtain ⟨_, _, _, _, _, he⟩ := historyEffects_shape env msg tid mid _ hm
        simp at he
      · simp at hm
  · intro t s stat hmem
    rw [heq] at hmem
    obtain ⟨hlt, body, name, hwm⟩ :=
      processEffects_save_cases env msg tid mid ws hv1 hv2 hv3 hws t s stat hmem
    obtain ⟨h1, h2, _⟩ :=
      workflow_manager_save_mem env tid ws.step body name t s stat hwm
    exact ⟨h1, h2, hlt⟩

/-- `envA` with thread `t1` already completed (step 4). -/
def envT : Env := { envA with workflowTable := [("t1", ⟨4, "completed"⟩)] }

/-- Witness for C8: on the completed thread, processing `msgA` performs no
state upsert and no send attempt. -/
theorem c8_terminal_monotone_w :
    lookupWorkflow envT.workflowTable "t1" = some ⟨4, "completed"⟩ ∧
    Effect.saveState "t1" 5 "sent_followup_5" ∉ (enhancedProcess envT ⟨[]⟩ msgA).2 ∧
    Effect.sendTry "t1" 0 true ∉ (enhancedProcess envT ⟨[]⟩ msgA).2 := by
  have h := c8_terminal_monotone envT ⟨[]⟩ msgA "t1" "m1" ⟨4, "completed"⟩
    rfl rfl (by decide) (by decide) (by decide) (by decide) rfl
  exact ⟨rfl, (h.1 (by norm_num)).1 "t1" 5 "sent_followup_5",
    (h.1 (by norm_num)).2 "t1" 0 true⟩

/-- When every generation attempt raises or returns an empty result, the
AI retry loop makes exactly 3 attempts and yields no content. -/
lemma aiLoop_all_fail (gen : Nat → Option String)
    (h : ∀ i, i < 3 → gen i = none ∨ gen i = some "") :
    aiLoop gen (List.range 3) =
      ([Effect.genAttempt 0, Effect.genAttempt 1, Effect.genAttempt 2], none) := by
  have hr : List.range 3 = [0, 1, 2] := rfl
  rw [hr]
  have h0 := h 0 (by norm_num)
  have h1 := h 1 (by norm_num)
  have h2 := h 2 (by norm_num)
  rcases h0 with h0 | h0 <;> rcases h1 with h1 | h1 <;> rcases h2 with h2 | h2 <;>
    simp [aiLoop, h0, h1, h2]

/-- Counterexample to C2: on `envA` every generation attempt raises, yet a
reply IS sent (the fallback text) and the step IS advanced — contradicting
"does not advance the thread's step ... no reply is sent for that
turn". -/
theorem c2_fallback_counterexample :
    (∀ i, i < 3 → envA.genResult i = none) ∧
    Effect.genAttempt 2 ∈ (enhancedProcess envA ⟨[]⟩ msgA).2 ∧
    Effect.sendTry "t1" 0 true ∈ (enhancedProcess envA ⟨[]⟩ msgA).2 ∧
    Effect.saveState "t1" 1 "sent_followup_1" ∈ (enhancedProcess envA ⟨[]⟩ msgA).2 := by
  refine ⟨fun i _ => rfl, ?_, ?_, ?_⟩ <;> decide

/-- Claim C2 (amended): when the Response Generator raises or returns an
empty result on all 3 attempts (no backoff between attempts), the
orchestrator does NOT skip: it substitutes the fixed fallback text as the
reply body and proceeds exactly as with generated content — the fallback
is handed to `workflow_manager`, which sends it and advances the step.
The skip-without-advance path runs only when no AI chat application is
configured, in which case `workflow_manager` receives an empty body. -/
theorem c2_fallback_sent (env : Env) (st : ProcState) (msg : GmailMessage)
    (tid mid : String) (ws : WorkflowState)
    (hth : msg.threadId = some tid) (hid : msg.id = some mid)
    (hnew : mid ∉ st.processed)
    (hv1 : strContains (lowerStr (fromHeaderOf msg)) (lowerStr (myEmailOf env)) = false)
    (hv2 : strContains (lowerStr (toHeaderOf msg)) (lowerStr (myEmailOf env)) = true)
    (hv3 : strContains (lowerStr (fromHeaderOf msg)) "noreply" = false)
    (hws : lookupWorkflow env.workflowTable tid = some ws)
    (hstep : ws.step < 4)
    (hchat : env.chatApp = true) (hemail : threadEmail env tid ≠ "")
    (hgen : ∀ i, i < 3 → env.genResult i = none ∨ env.genResult i = some "") :
    (enhancedProcess env st msg).2 =
      historyEffects env msg tid mid ++ [Effect.loadState tid] ++
      [Effect.genAttempt 0, Effect.genAttempt 1, Effect.genAttempt 2] ++
      workflow_manager env tid ws.step fallbackText (userNameOf env msg) ∧
    Effect.saveState tid (ws.step + 1) (statusOfStep ws.step) ∈
      (enhancedProcess env st msg).2 := by
  have heq : (enhancedProcess env st msg).2 = processEffects env msg tid mid := by
    simp [enhancedProcess, hth, hid, hnew]
  have h4 : ¬ 4 ≤ ws.step := by omega
  have hai := aiLoop_all_fail env.genResult hgen
  have hred : processEffects env msg tid mid =
      historyEffects env msg tid mid ++ [Effect.loadState tid] ++
      [Effect.genAttempt 0, Effect.genAttempt 1, Effect.genAttempt 2] ++
      workflow_manager env tid ws.step fallbackText (userNameOf env msg) := by
    simp [processEffects, hv1, hv2, hv3, hws, h4, hchat, hemail, hai]
  constructor
  · rw [heq, hred]
  · rw [heq, hred]
    have hstep3 : ws.step ≤ 3 := by omega
    rw [workflow_manager_eq env tid ws.step fallbackText (userNameOf env msg)
      hstep3 (by decide)]
    simp

/-- Witness for C2 (amended): the concrete all-raise run of the
counterexample environment, where the fallback is sent and step 0
advances to 1. -/
theorem c2_fallback_sent_w :
    (∀ i, i < 3 → envA.genResult i = none ∨ envA.genResult i = some "") ∧
    Effect.saveState "t1" 1 "sent_followup_1" ∈ (enhancedProcess envA ⟨[]⟩ msgA).2 := by
  refine ⟨fun i _ => Or.inl rfl, ?_⟩
  have h := (c2_fallback_sent envA ⟨[]⟩ msgA "t1" "m1" ⟨0, "sent_initial"⟩
    rfl rfl (by decide) (by decide) (by decide) (by decide) rfl (by norm_num)
    rfl (by decide) (fun i _ => Or.inl rfl)).2
  simpa [statusOfStep] using h

/-- Every effect of the retry loop is from `afterOk`, a send attempt, or a
sleep. -/
lemma sendLoop_mem (outcome : Nat → Bool) (tid : String)
    (afterOk : List Effect) (l : List Nat) (e : Effect)
    (he : e ∈ (sendLoop outcome tid afterOk l).1) :
    e ∈ afterOk ∨ (∃ i b, e = Effect.sendTry tid i b) ∨ ∃ d, e = Effect.sleep d := by
  induction l with
  | nil => simp [sendLoop] at he
  | cons i rest ih =>
    simp only [sendLoop] at he
    split at he
    · simp at he
      rcases he with he | he
      · exact Or.inr (Or.inl ⟨i, true, he⟩)
      · exact Or.inl he
    · split at he
      · simp at he
        exact Or.inr (Or.inl ⟨i, false, he⟩)
      · simp at he
        rcases he with he | he | he
        · exact Or.inr (Or.inl ⟨i, false, he⟩)
        · exact Or.inr (Or.inr ⟨2 ^ i, he⟩)
        · exact ih he

/-- `send_reply_email` never acknowledges. -/
lemma send_reply_no_ack (env : Env) (tid body name : String) :
    Effect.ack ∉ send_reply_email env tid body name := by
  simp only [send_reply_email]
  split
  · simp
  · split
    · intro hm
      rcases List.mem_append.mp hm with hm | hm
      · rcases sendLoop_mem _ _ _ _ _ hm with hm2 | ⟨i, b, he⟩ | ⟨d, he⟩
        · simp at hm2
        · exact Effect.noConfusion he
        · exact Effect.noConfusion he
      · simp at hm
    · intro hm
      rcases sendLoop_mem _ _ _ _ _ hm with hm2 | ⟨i, b, he⟩ | ⟨d, he⟩
      · simp at hm2
      · exact Effect.noConfusion he
      · exact Effect.noConfusion he

/-- The message-processing pipeline never acknowledges: the
acknowledgement is the subscription callback's alone. -/
lemma processEffects_no_ack (env : Env) (msg : GmailMessage)
    (tid mid : String) : Effect.ack ∉ processEffects env msg tid mid := by
  have hh : Effect.ack ∉ historyEffects env msg tid mid := by
    intro hm
    obtain ⟨_, _, _, _, _, he⟩ := historyEffects_shape env msg tid mid _ hm
    simp at he
  have hload : Effect.ack ∉ [Effect.loadState tid] := by simp
  have hwm : ∀ step body name, Effect.ack ∉ workflow_manager env tid step body name := by
    intro step body name
    unfold workflow_manager
    split
    · split
      · intro hm
        rcases List.mem_append.mp hm with hm | hm
        · exact send_reply_no_ack env tid body name hm
        · revert hm
          split <;> simp
      · simp
    · simp
  have hacc : ∀ l1 l2 : List Effect, Effect.ack ∉ l1 → Effect.ack ∉ l2 →
      Effect.ack ∉ l1 ++ l2 := by
    intro l1 l2 n1 n2 hm
    rcases List.mem_append.mp hm with hm | hm
    · exact n1 hm
    · exact n2 hm
  by_cases g1 : strContains (lowerStr (fromHeaderOf msg)) (lowerStr (myEmailOf env)) = true
  · simpa [processEffects, g1] using hh
  · have g1f : strContains (lowerStr (fromHeaderOf msg)) (lowerStr (myEmailOf env)) = false := by
      simpa using g1
    by_cases g2 : strContains (lowerStr (toHeaderOf msg)) (lowerStr (myEmailOf env)) = true
    · by_cases g3 : strContains (lowerStr (fromHeaderOf msg)) "noreply" = true
      · simpa [processEffects, g1f, g2, g3] using hh
      · have g3f : strContains (lowerStr (fromHeaderOf msg)) "noreply" = false := by
          simpa using g3
        rcases hws : lookupWorkflow env.workflowTable tid with _ | ws
        · have hred : processEffects env msg tid mid =
              historyEffects env msg tid mid ++ [Effect.loadState tid] := by
            simp [processEffects, g1f, g2, g3f, hws]
          rw [hred]
          exact hacc _ _ hh hload
        · by_cases h4 : 4 ≤ ws.step
          · rw [processEffects_terminal env msg tid mid ws g1f g2 g3f hws h4]
            exact hacc _ _ hh hload
          · by_cases hch : env.chatApp = true ∧ threadEmail env tid ≠ ""
            · have hred : processEffects env msg tid mid =
                  historyEffects env msg tid mid ++ [Effect.loadState tid] ++
                  (aiLoop env.genResult (List.range 3)).1 ++
                  workflow_manager env tid ws.step
                    (match (aiLoop env.genResult (List.range 3)).2 with
                      | some sr => sr
                      | none => fallbackText) (userNameOf env msg) := by
                simp [processEffects, g1f, g2, g3f, hws, h4, hch]
              rw [hred]
              refine hacc _ _ (hacc _ _ (hacc _ _ hh hload) ?_) (hwm _ _ _)
              intro hm
              obtain ⟨i, he⟩ := aiLoop_mem _ _ _ hm
              exact Effect.noConfusion he
            · have hred : processEffects env msg tid mid =
                  historyEffects env msg tid mid ++ [Effect.loadState tid] ++
                  workflow_manager env tid ws.step "" "Unknown" := by
                simp [processEffects, g1f, g2, g3f, hws, h4, hch]
              rw [hred]
              exact hacc _ _ (hacc _ _ hh hload) (hwm _ _ _)
    · have g2f : strContains (lowerStr (toHeaderOf msg)) (lowerStr (myEmailOf env)) = false := by
        simpa using g2
      simpa [processEffects, g1f, g2f] using hh

/-- Incoming-message processing never acknowledges. -/
lemma enhancedProcess_no_ack (env : Env) (st : ProcState)
    (msg : GmailMessage) : Effect.ack ∉ (enhancedProcess env st msg).2 := by
  unfold enhancedProcess
  split
  · simp
  · simp
  · split
    · simp
    · exact processEffects_no_ack _ _ _ _

/-- The per-id loop never acknowledges. -/
lemma processIds_no_ack (env : Env) (st : ProcState) (ids : List String) :
    Effect.ack ∉ (processIds env st ids).2 := by
  induction ids generalizing st with
  | nil => simp [processIds]
  | cons i rest ih =>
    simp only [processIds]
    split
    · exact ih st
    · intro hm
      rcases List.mem_append.mp hm with hm | hm
      · exact enhancedProcess_no_ack _ _ _ hm
      · exact ih _ hm

/-- The notification listener never acknowledges by itself. -/
lemma pubsub_no_ack (env : Env) (st : ProcState) (ev : PushEvent) :
    Effect.ack ∉ (pubsub_listener env st ev).2 := by
  unfold pubsub_listener
  split
  · simp
  · simp
  · split
    · simp
    · split
      · exact processIds_no_ack _ _ _
      · split
        · exact processIds_no_ack _ _ _
        · simp

/-- Claim C9: for every delivered push notification — whatever the
environment does: ingestion failures, fetch failures, validation skips,
generation or send failures — the subscription callback acknowledges
exactly once, after all local processing effects; and the callback is a
total function, so no error raised during notification processing escapes
the notification-processing boundary. -/
theorem c9_ack_always (env : Env) (st : ProcState) (ev : PushEvent) :
    (listenerCallback env st ev).2 =
      (pubsub_listener env st ev).2 ++ [Effect.ack] ∧
    Effect.ack ∉ (pubsub_listener env st ev).2 := by
  exact ⟨rfl, pubsub_no_ack env st ev⟩

/-- Claim C10: whenever the required fields of `user_data` and
`message_data` are all present, `store_message` returns `(True, None)`
for EVERY database outcome — a raised select, a failed user insert, a
failed message insert — because the inner handlers swallow those errors;
the success flag does not witness that any row was written. -/
theorem c10_store_message_success (env : DbEnv) (u : UserData)
    (m : MessageData) (hue : u.email.isSome) (hun : u.name.isSome)
    (ht : m.thread_id.isSome) (hmi : m.message_id.isSome)
    (hs : m.sender.isSome) (hb : m.body.isSome) (hsub : m.subject.isSome)
    (hts : m.timestamp.isSome) :
    store_message env u m = (true, none) := by
  obtain ⟨e, he⟩ := Option.isSome_iff_exists.mp hue
  obtain ⟨n, hn⟩ := Option.isSome_iff_exists.mp hun
  obtain ⟨f1, h1⟩ := Option.isSome_iff_exists.mp ht
  obtain ⟨f2, h2⟩ := Option.isSome_iff_exists.mp hmi
  obtain ⟨f3, h3⟩ := Option.isSome_iff_exists.mp hs
  obtain ⟨f4, h4⟩ := Option.isSome_iff_exists.mp hb
  obtain ⟨f5, h5⟩ := Option.isSome_iff_exists.mp hsub
  obtain ⟨f6, h6⟩ := Option.isSome_iff_exists.mp hts
  obtain ⟨usel, uok, mok⟩ := env
  cases usel with
  | none =>
    cases uok <;> cases mok <;>
      simp [store_message, tryUpsertUser, tryInsertMessage,
        he, hn, h1, h2, h3, h4, h5, h6]
  | some found =>
    cases found <;> cases uok <;> cases mok <;>
      simp [store_message, tryUpsertUser, tryInsertMessage,
        he, hn, h1, h2, h3, h4, h5, h6]

/-- Witness for C10: with a raised user select and both inserts failing,
a fully populated call still reports success. -/
theorem c10_store_message_success_w :
    (some "e@x.com" : Option String).isSome ∧
    store_message ⟨none, false, false⟩ ⟨some "e@x.com", some "N"⟩
      ⟨some "t", some "m", some "user", some "b", some "s", some "ts"⟩ =
      (true, none) := by
  exact ⟨rfl, c10_store_message_success ⟨none, false, false⟩
    ⟨some "e@x.com", some "N"⟩
    ⟨some "t", some "m", some "user", some "b", some "s", some "ts"⟩
    rfl rfl rfl rfl rfl rfl rfl rfl⟩

end GmailAgent
